import Mathlib

/-!
Verification of the multipart-upload streaming core of `minio-steam-to-s3`
(`src/main.go`): the part-size planner `optimalPartInfo`, the hashing copier
`hashCopyN`, and the upload orchestrator `PutStream`, as a shallow embedding.

Modelling conventions:

* Go `int64` values are modelled as `Int` (byte counts that are provably
  non-negative are modelled as `Nat`).  Overflow never occurs on the paths the
  theorems traverse (all byte counts stay far below `2^63`), except where noted.
* The planner's `float64` arithmetic is modelled by exact integer arithmetic.
  On the domain relevant here (`|objectSize| ≤ 2^53`) every `float64` step of
  the source is exact, so the exact model coincides with the source:
  - `float64(objectSize / maxPartsCount)` is a Go *integer* division (the
    quotient is below `2^53`, hence exactly representable);
  - division by `minPartSize = 2^26` is a power-of-two scaling, exact;
  - `math.Ceil` on those values is the real ceiling;
  - all products stay below `2^53`.
  The only platform-dependent point is Go's conversion `int(...)` of a
  non-finite `float64` (`+Inf` arises when `partSizeFlt` is `0` and `NaN`
  when additionally `objectSize = 0`); on amd64 this conversion yields
  `math.MinInt64`, which the model adopts (`int64OfNonfinite`).
* Streams (`io.Reader`) are modelled by the number of bytes they deliver
  before terminating, plus how they terminate (clean EOF or a read fault).
  Hash digests are abstracted to the number of bytes hashed: no claim
  inspects digest values, only which map entries get populated.
* The store client (`minio.Core`) is modelled by its observable outcomes:
  whether client construction, upload initiation, each `PutObjectPart` call,
  and `CompleteMultipartUpload` succeed, and the ETag returned per part.
-/

namespace MinioStream

/-! ## Errors

The error values the source distinguishes: `io.EOF`, `io.ErrUnexpectedEOF`,
the `fmt.Errorf("Missing part number %d", i)` bookkeeping error, and the
opaque errors surfaced by the reader and the store client (abstracted by a
numeric code). -/

/-- Error values observable in `src/main.go`. -/
inductive GoError where
  | eof
  | unexpectedEOF
  | missingPart (i : Nat)
  | readFault (code : Nat)
  | clientErr (code : Nat)
  | initErr (code : Nat)
  | partUploadErr (code : Nat)
  | completeErr (code : Nat)
  deriving DecidableEq

/-! ## The planner: `optimalPartInfo` (src/main.go lines 62-86) -/

/-- `const maxPartsCount = 10000` (src/main.go line 62). -/
def maxPartsCount : Int := 10000

/-- `const minPartSize = 1024 * 1024 * 64` (src/main.go line 63). -/
def minPartSize : Int := 1024 * 1024 * 64

/-- `const maxMultipartPutObjectSize = 1024 * 1024 * 1024 * 640`
(src/main.go line 64). -/
def maxMultipartPutObjectSize : Int := 1024 * 1024 * 1024 * 640

/-- Real ceiling of the fraction `a / b` for `b > 0`: the exact value of Go's
`math.Ceil(x/y)` when both operands and the quotient are exactly
representable. -/
def ceilDivInt (a b : Int) : Int := -((-a).fdiv b)

/-- Go's conversion `int(f)` for a `float64` `f` outside the `int64` range
(including `±Inf` and `NaN`) is implementation-dependent; on amd64
(`cvttsd2si`) it yields `math.MinInt64`. The planner hits this case exactly
when its computed `partSizeFlt` is `0`, i.e. for `0 ≤ objectSize < 10000`
and for negative sizes other than the `-1` sentinel. -/
def int64OfNonfinite : Int := -(2 ^ 63)

/-- Result triple of `optimalPartInfo` (the source's fourth return value,
`err`, is the constant `nil` and is omitted). -/
structure PartInfo where
  totalPartsCount : Int
  partSize : Int
  lastPartSize : Int
  deriving DecidableEq

/-- `optimalPartInfo` (src/main.go lines 66-86), with the source's `float64`
arithmetic rendered exactly (see the module comment for the exactness
argument on `|objectSize| ≤ 2^53`):

* `objectSize == -1` is replaced by the 640 GiB ceiling;
* `partSizeFlt := math.Ceil(float64(objectSize / maxPartsCount))` — an
  integer (truncating) division, whose result the outer `Ceil` leaves
  unchanged;
* `partSizeFlt = math.Ceil(partSizeFlt/minPartSize) * minPartSize`;
* `totalPartsCount = int(math.Ceil(float64(objectSize) / partSizeFlt))` —
  when `partSizeFlt = 0` the division yields a non-finite `float64` and the
  conversion yields `int64OfNonfinite`;
* `lastPartSize = objectSize - int64(totalPartsCount-1)*partSize`. -/
def optimalPartInfo (objectSize : Int) : PartInfo :=
  let objectSize := if objectSize = -1 then maxMultipartPutObjectSize else objectSize
  let q := objectSize.tdiv maxPartsCount
  let partSize := ceilDivInt q minPartSize * minPartSize
  let totalPartsCount :=
    if partSize = 0 then int64OfNonfinite else ceilDivInt objectSize partSize
  let lastPartSize := objectSize - (totalPartsCount - 1) * partSize
  { totalPartsCount := totalPartsCount, partSize := partSize, lastPartSize := lastPartSize }

/-! ## Streams and the store client -/

/-- A source stream (`io.Reader`): it delivers exactly `len` bytes and then
terminates, either with a clean end-of-stream (`fault = none`, reads return
`io.EOF`) or with a read fault carrying an abstract code
(`fault = some code`). -/
structure StreamModel where
  len : Nat
  fault : Option Nat
  deriving DecidableEq

/-- The S3 client (`minio.Core`), abstracted to the outcomes of its calls:
`newClientErr` — failure of `minio.NewV2`; `newMultipartErr` — failure of
`NewMultipartUpload`; `partErr n` — failure of `PutObjectPart` for part
number `n`; `partETag n` — the ETag it returns on success (abstracted to a
number); `completeErr` — failure of `CompleteMultipartUpload`. -/
structure StoreModel where
  newClientErr : Option Nat
  newMultipartErr : Option Nat
  partErr : Nat → Option Nat
  partETag : Nat → Nat
  completeErr : Option Nat

/-- `minio.ObjectPart` as used by the source: the fields `PutObjectPart`
returns that the orchestrator reads (`ETag`, `PartNumber`) plus the size it
was given. -/
structure ObjectPart where
  partNumber : Nat
  etag : Nat
  size : Nat
  deriving DecidableEq

/-- `minio.CompletePart` as built by the source (src/main.go lines 245-249):
`{ETag, PartNumber}`. -/
structure CompletePart where
  etag : Nat
  partNumber : Nat
  deriving DecidableEq

/-! ## `hashCopyN` (src/main.go lines 102-123) -/

/-- Everything observable about one `hashCopyN` call: the returned
`(size, err)` pair, the number of bytes that were appended to the writer
(the temporary buffer) — on a read fault `io.CopyN` has already written the
bytes read before the fault even though `hashCopyN` then reports `0` — and
the digest map population (digests abstracted to byte counts, keyed by
algorithm name). -/
structure HashCopyResult where
  size : Nat
  err : Option GoError
  written : Nat
  hashSums : List (String × Nat)
  deriving DecidableEq

/-- `hashCopyN` reading from stream `src` at offset `pos` with limit
`partSize` (src/main.go lines 102-123):

* `io.CopyN` copies `partSize` bytes when that many remain (returning a nil
  error without observing the stream's end), and otherwise copies what
  remains and then observes the termination — `io.EOF` or the read fault;
* on a fault other than `io.EOF` the function returns `(0, err)` at once,
  leaving `hashSums` unpopulated (src/main.go lines 111-117);
* otherwise every requested digest is finalized into `hashSums` and the
  byte count is returned together with the (possibly `io.EOF`) error. -/
def hashCopyN (hashAlgos : List String) (src : StreamModel) (pos partSize : Nat) :
    HashCopyResult :=
  let avail := src.len - pos
  if partSize ≤ avail then
    { size := partSize, err := none, written := partSize,
      hashSums := hashAlgos.map fun a => (a, partSize) }
  else
    match src.fault with
    | none =>
      { size := avail, err := some .eof, written := avail,
        hashSums := hashAlgos.map fun a => (a, avail) }
    | some code =>
      { size := 0, err := some (.readFault code), written := avail, hashSums := [] }

/-! ## The orchestrator: `PutStream` (src/main.go lines 126-258) -/

/-- Everything observable about one `PutStream` call: the returned
`(n, err)` pair, every `PutObjectPart` call attempted (part number and
size, in order), whether `CompleteMultipartUpload` was issued and with
which part list, the temporary buffer's byte count at return, and whether
the `size > 0 && totalUploadedSize != size` verification branch
(src/main.go lines 231-235) fired. -/
structure PutStreamResult where
  n : Nat
  err : Option GoError
  partCalls : List (Nat × Nat)
  completionCalled : Bool
  completionParts : List CompletePart
  tmpBufferLen : Nat
  sizeCheckTripped : Bool
  deriving DecidableEq

/-- Outcome of the part loop: an early `return` from inside the loop, or
falling through to the post-loop code with the final loop state
(`partNumber`, stream offset, `totalUploadedSize`, `partsInfo`, part
calls made). -/
inductive LoopResult where
  | abort (res : PutStreamResult)
  | finish (partNumber pos total : Nat)
      (partsInfo : List (Nat × ObjectPart)) (calls : List (Nat × Nat))
  deriving DecidableEq

/-- The part loop `for partNumber <= totalPartsCount` (src/main.go lines
183-228).  `fuel` only bounds the recursion; `PutStream` supplies
`totalPartsCount + 1`, which the loop never exhausts since `partNumber`
increases every iteration.  Each iteration:

* builds a fresh hasher set for `md5` and `sha256` and calls `hashCopyN`
  to fill the temporary buffer;
* on a copy error other than `io.EOF`, `return 0, rErr` — note the source
  returns `0` (not `totalUploadedSize`) and does not reset the buffer on
  this path (src/main.go lines 193-197);
* calls `PutObjectPart`; on failure resets the buffer and
  `return totalUploadedSize, err` (lines 203-209);
* on success records the part in `partsInfo`, resets the buffer, adds
  `prtSize` to the running total, increments `partNumber`, and breaks out
  of the loop when `size < 0 && rErr == io.EOF` (lines 211-227). -/
def putStreamLoop (store : StoreModel) (src : StreamModel)
    (totalPartsCount partSize : Nat) (size : Int) :
    Nat → Nat → Nat → Nat → List (Nat × ObjectPart) → List (Nat × Nat) → LoopResult
  | 0, partNumber, pos, total, partsInfo, calls =>
    .finish partNumber pos total partsInfo calls
  | fuel + 1, partNumber, pos, total, partsInfo, calls =>
    if totalPartsCount < partNumber then .finish partNumber pos total partsInfo calls
    else
      let h := hashCopyN ["md5", "sha256"] src pos partSize
      if h.err ≠ none ∧ h.err ≠ some GoError.eof then
        .abort { n := 0, err := h.err, partCalls := calls, completionCalled := false,
                 completionParts := [], tmpBufferLen := h.written, sizeCheckTripped := false }
      else
        let prtSize := h.size
        let calls := calls ++ [(partNumber, prtSize)]
        match store.partErr partNumber with
        | some code =>
          .abort { n := total, err := some (.partUploadErr code), partCalls := calls,
                   completionCalled := false, completionParts := [], tmpBufferLen := 0,
                   sizeCheckTripped := false }
        | none =>
          let objPart : ObjectPart :=
            { partNumber := partNumber, etag := store.partETag partNumber, size := prtSize }
          let partsInfo := partsInfo ++ [(partNumber, objPart)]
          let total := total + prtSize
          if size < 0 ∧ h.err = some GoError.eof then
            .finish (partNumber + 1) (pos + h.written) total partsInfo calls
          else
            putStreamLoop store src totalPartsCount partSize size fuel
              (partNumber + 1) (pos + h.written) total partsInfo calls

/-- The part-list reconstruction loop `for i := 1; i < partNumber; i++`
(src/main.go lines 239-250), counting down the `remaining` iterations with
`i` the current part number: look up each recorded part, failing with the
`Missing part number` error when absent, and append
`CompletePart{ETag, PartNumber}` drawn from the record. -/
def buildGo (partsInfo : List (Nat × ObjectPart)) :
    Nat → Nat → List CompletePart → Except GoError (List CompletePart)
  | 0, _, acc => .ok acc
  | remaining + 1, i, acc =>
    match partsInfo.lookup i with
    | none => .error (.missingPart i)
    | some part =>
      buildGo partsInfo remaining (i + 1)
        (acc ++ [{ etag := part.etag, partNumber := part.partNumber }])

/-- The completed-part list for parts `1 .. partNumber-1` (src/main.go
lines 239-250). -/
def buildCompletedParts (partsInfo : List (Nat × ObjectPart)) (partNumber : Nat) :
    Except GoError (List CompletePart) :=
  buildGo partsInfo (partNumber - 1) 1 []

/-- Insert a part into a list sorted by the source's
`completedParts.Less` comparison `a[i].PartNumber < a[j].PartNumber`
(src/main.go line 94). -/
def insertPart (p : CompletePart) : List CompletePart → List CompletePart
  | [] => [p]
  | q :: qs => if p.partNumber < q.partNumber then p :: q :: qs else q :: insertPart p qs

/-- `sort.Sort(completedParts(...))` (src/main.go line 253) realised as an
insertion sort over the source's `Less` ordering — `sort.Sort` promises
only an ordering by `Less`, which any comparison sort realises. -/
def sortParts : List CompletePart → List CompletePart
  | [] => []
  | p :: ps => insertPart p (sortParts ps)

/-- The post-loop finalize sequence (src/main.go lines 237-257):
reconstruct the part list (on a gap: print, `return 0, fmt.Errorf(...)`
without calling completion), sort it, issue
`CompleteMultipartUpload`, and return `totalUploadedSize` with the
completion call's error. -/
def finalize (store : StoreModel) (partsInfo : List (Nat × ObjectPart))
    (partNumber total : Nat) (calls : List (Nat × Nat)) : PutStreamResult :=
  match buildCompletedParts partsInfo partNumber with
  | .error e =>
    { n := 0, err := some e, partCalls := calls, completionCalled := false,
      completionParts := [], tmpBufferLen := 0, sizeCheckTripped := false }
  | .ok parts =>
    { n := total, err := store.completeErr.map fun code => GoError.completeErr code,
      partCalls := calls, completionCalled := true, completionParts := sortParts parts,
      tmpBufferLen := 0, sizeCheckTripped := false }

/-- `PutStream` (src/main.go lines 126-258).  Client construction (from the
`SSL`/`S3_ADDRESS`/`ACCESS_KEY`/`SECRET_KEY` environment) and
`NewMultipartUpload` are abstracted to their outcomes in `store`; each
failure is an immediate `return 0, err`.  The object size is then
hard-coded to the unknown-size sentinel `size := int64(-1)` (line 164)
before planning, the part loop runs, the
`size > 0 && totalUploadedSize != size` verification (lines 231-235) is
checked, and the upload is finalized. -/
def putStream (store : StoreModel) (src : StreamModel) : PutStreamResult :=
  match store.newClientErr with
  | some code =>
    { n := 0, err := some (.clientErr code), partCalls := [], completionCalled := false,
      completionParts := [], tmpBufferLen := 0, sizeCheckTripped := false }
  | none =>
    match store.newMultipartErr with
    | some code =>
      { n := 0, err := some (.initErr code), partCalls := [], completionCalled := false,
        completionParts := [], tmpBufferLen := 0, sizeCheckTripped := false }
    | none =>
      let size : Int := -1
      let info := optimalPartInfo size
      match putStreamLoop store src info.totalPartsCount.toNat info.partSize.toNat size
          (info.totalPartsCount.toNat + 1) 1 0 0 [] [] with
      | .abort res => res
      | .finish partNumber _pos total partsInfo calls =>
        if 0 < size ∧ (total : Int) ≠ size then
          { n := total, err := some .unexpectedEOF, partCalls := calls,
            completionCalled := false, completionParts := [], tmpBufferLen := 0,
            sizeCheckTripped := true }
        else
          finalize store partsInfo partNumber total calls

/-- A store whose every operation succeeds, with ETags abstracted to `0`. -/
def okStore : StoreModel :=
  { newClientErr := none, newMultipartErr := none, partErr := fun _ => none,
    partETag := fun _ => 0, completeErr := none }

/-- The store of the spec's failure-propagation scenario: `PutObjectPart`
fails on part 3 and succeeds elsewhere. -/
def failAt3Store : StoreModel :=
  { newClientErr := none, newMultipartErr := none,
    partErr := fun i => if i = 3 then some 9 else none, partETag := fun _ => 0,
    completeErr := none }

/-! ## Characterising the part loop

The runs of `putStreamLoop` that the claims exercise: an all-success store
with a stream that terminates inside the part budget (`putStreamLoop_exhaust`),
an all-success store with a stream at least as long as the budget
(`putStreamLoop_budget`), and a store whose first `PutObjectPart` failure is
reached (`putStreamLoop_partfail`). -/

/-- The `PutObjectPart` calls for `f` consecutive full parts
`pn, pn+1, …, pn+f-1`. -/
def fullCalls (partSize pn f : Nat) : List (Nat × Nat) :=
  (List.range' pn f).map fun i => (i, partSize)

/-- The `partsInfo` records accumulated for `f` full parts starting at part
`pn` followed by one final part of `r` bytes. -/
def cleanRecords (store : StoreModel) (partSize : Nat) :
    Nat → Nat → Nat → List (Nat × ObjectPart)
  | pn, 0, r => [(pn, { partNumber := pn, etag := store.partETag pn, size := r })]
  | pn, f + 1, r =>
    (pn, { partNumber := pn, etag := store.partETag pn, size := partSize }) ::
      cleanRecords store partSize (pn + 1) f r

/-- The `partsInfo` records accumulated for `m` full parts starting at part
`pn`. -/
def fullRecords (store : StoreModel) (partSize : Nat) : Nat → Nat → List (Nat × ObjectPart)
  | _, 0 => []
  | pn, m + 1 =>
    (pn, { partNumber := pn, etag := store.partETag pn, size := partSize }) ::
      fullRecords store partSize (pn + 1) m

theorem fullCalls_zero (partSize pn : Nat) : fullCalls partSize pn 0 = [] := rfl

theorem fullCalls_succ (partSize pn f : Nat) :
    fullCalls partSize pn (f + 1) = (pn, partSize) :: fullCalls partSize (pn + 1) f := by
  simp [fullCalls, List.range'_succ]

/-- With an all-success store, a stream that runs out `f` full parts plus
`r < partSize` bytes into the loop (counting from offset `pos`) makes the
loop transfer those `f` full parts, then one final part of `r` bytes.  If
the stream ends cleanly the final part's copy sees `io.EOF`, the part is
uploaded and the loop breaks; if the stream ends in a read fault the loop
aborts with `return 0, rErr`, leaving the `r` partial bytes in the
temporary buffer. -/
theorem putStreamLoop_exhaust (store : StoreModel) (src : StreamModel)
    (tpc partSize r : Nat) (hstore : ∀ i, store.partErr i = none) (hr : r < partSize) :
    ∀ (f fuel pn pos total : Nat) (partsInfo : List (Nat × ObjectPart))
      (calls : List (Nat × Nat)),
      pn + f ≤ tpc → f < fuel → src.len = pos + f * partSize + r →
      putStreamLoop store src tpc partSize (-1) fuel pn pos total partsInfo calls =
        match src.fault with
        | none =>
          .finish (pn + f + 1) src.len (total + (f * partSize + r))
            (partsInfo ++ cleanRecords store partSize pn f r)
            (calls ++ fullCalls partSize pn f ++ [(pn + f, r)])
        | some code =>
          .abort
            { n := 0, err := some (.readFault code),
              partCalls := calls ++ fullCalls partSize pn f, completionCalled := false,
              completionParts := [], tmpBufferLen := r, sizeCheckTripped := false } := by
  intro f
  induction f with
  | zero =>
    intro fuel pn pos total partsInfo calls hbudget hfuel hlen
    obtain ⟨g, rfl⟩ : ∃ g, fuel = g + 1 := ⟨fuel - 1, by omega⟩
    have havail : src.len - pos = r := by omega
    have hlt : ¬ partSize ≤ r := by omega
    simp only [putStreamLoop, hashCopyN, havail, if_neg hlt, if_neg (by omega : ¬ tpc < pn)]
    cases hf : src.fault with
    | none =>
      simp [hstore pn, cleanRecords, fullCalls, hlen, show (-1 : Int) < 0 from by omega]
    | some code =>
      simp [fullCalls]
  | succ f ih =>
    intro fuel pn pos total partsInfo calls hbudget hfuel hlen
    obtain ⟨g, rfl⟩ : ∃ g, fuel = g + 1 := ⟨fuel - 1, by omega⟩
    rw [Nat.succ_mul] at hlen
    have hge : partSize ≤ src.len - pos := by omega
    have hrec := ih g (pn + 1) (pos + partSize) (total + partSize)
      (partsInfo ++ [(pn, { partNumber := pn, etag := store.partETag pn, size := partSize })])
      (calls ++ [(pn, partSize)]) (by omega) (by omega) (by omega)
    simp only [putStreamLoop, hashCopyN, if_pos hge, if_neg (by omega : ¬ tpc < pn),
      hstore pn]
    norm_num
    rw [hrec]
    cases src.fault with
    | none =>
      have hidx : pn + 1 + f = pn + (f + 1) := by omega
      have hmul : (f + 1) * partSize = f * partSize + partSize := Nat.succ_mul f partSize
      simp [hidx, hmul, cleanRecords, fullCalls_succ, List.append_assoc]
      omega
    | some code =>
      simp [fullCalls_succ, List.append_assoc]

/-- With an all-success store, a stream holding at least the `m` remaining
budgeted parts (`pn + m = totalPartsCount + 1`) makes the loop upload `m`
full parts and exit by the loop guard, never observing the stream's end. -/
theorem putStreamLoop_budget (store : StoreModel) (src : StreamModel)
    (tpc partSize : Nat) (hstore : ∀ i, store.partErr i = none) :
    ∀ (m fuel pn pos total : Nat) (partsInfo : List (Nat × ObjectPart))
      (calls : List (Nat × Nat)),
      pn + m = tpc + 1 → m < fuel → m * partSize ≤ src.len - pos →
      putStreamLoop store src tpc partSize (-1) fuel pn pos total partsInfo calls =
        .finish (tpc + 1) (pos + m * partSize) (total + m * partSize)
          (partsInfo ++ fullRecords store partSize pn m)
          (calls ++ fullCalls partSize pn m) := by
  intro m
  induction m with
  | zero =>
    intro fuel pn pos total partsInfo calls hpn hfuel _hlen
    obtain ⟨g, rfl⟩ : ∃ g, fuel = g + 1 := ⟨fuel - 1, by omega⟩
    simp only [putStreamLoop, if_pos (by omega : tpc < pn)]
    simp [fullRecords, fullCalls]
    omega
  | succ m ih =>
    intro fuel pn pos total partsInfo calls hpn hfuel hlen
    obtain ⟨g, rfl⟩ : ∃ g, fuel = g + 1 := ⟨fuel - 1, by omega⟩
    rw [Nat.succ_mul] at hlen
    have hge : partSize ≤ src.len - pos := by omega
    have hrec := ih g (pn + 1) (pos + partSize) (total + partSize)
      (partsInfo ++ [(pn, { partNumber := pn, etag := store.partETag pn, size := partSize })])
      (calls ++ [(pn, partSize)]) (by omega) (by omega) (by omega)
    simp only [putStreamLoop, hashCopyN, if_pos hge, if_neg (by omega : ¬ tpc < pn), hstore pn]
    norm_num
    rw [hrec]
    have hmul : (m + 1) * partSize = m * partSize + partSize := Nat.succ_mul m partSize
    simp [hmul, fullRecords, fullCalls_succ, List.append_assoc]
    omega

/-- When the store's first `PutObjectPart` failure is at part `pn + j`
(everything before succeeds) and the stream holds at least `j + 1` more full
parts, the loop transfers `j` full parts, attempts part `pn + j`, and
aborts with `return totalUploadedSize, err` after resetting the buffer. -/
theorem putStreamLoop_partfail (store : StoreModel) (src : StreamModel)
    (tpc partSize c : Nat) :
    ∀ (j fuel pn pos total : Nat) (partsInfo : List (Nat × ObjectPart))
      (calls : List (Nat × Nat)),
      (∀ i, i < pn + j → store.partErr i = none) →
      store.partErr (pn + j) = some c →
      pn + j ≤ tpc → j < fuel → (j + 1) * partSize ≤ src.len - pos →
      putStreamLoop store src tpc partSize (-1) fuel pn pos total partsInfo calls =
        .abort
          { n := total + j * partSize, err := some (.partUploadErr c),
            partCalls := calls ++ fullCalls partSize pn (j + 1), completionCalled := false,
            completionParts := [], tmpBufferLen := 0, sizeCheckTripped := false } := by
  intro j
  induction j with
  | zero =>
    intro fuel pn pos total partsInfo calls hpre hfail hbudget hfuel hlen
    obtain ⟨g, rfl⟩ : ∃ g, fuel = g + 1 := ⟨fuel - 1, by omega⟩
    rw [Nat.one_mul] at hlen
    rw [Nat.add_zero] at hfail
    simp only [putStreamLoop, hashCopyN, if_pos hlen, if_neg (by omega : ¬ tpc < pn), hfail]
    norm_num
    simp [fullCalls]
  | succ j ih =>
    intro fuel pn pos total partsInfo calls hpre hfail hbudget hfuel hlen
    obtain ⟨g, rfl⟩ : ∃ g, fuel = g + 1 := ⟨fuel - 1, by omega⟩
    rw [Nat.succ_mul] at hlen
    have hge : partSize ≤ src.len - pos := by omega
    have hrec := ih g (pn + 1) (pos + partSize) (total + partSize)
      (partsInfo ++ [(pn, { partNumber := pn, etag := store.partETag pn, size := partSize })])
      (calls ++ [(pn, partSize)])
      (by intro i hi; exact hpre i (by omega))
      (by rw [show pn + 1 + j = pn + (j + 1) from by omega]; exact hfail)
      (by omega) (by omega) (by omega)
    simp only [putStreamLoop, hashCopyN, if_pos hge, if_neg (by omega : ¬ tpc < pn),
      hpre pn (by omega)]
    norm_num
    rw [hrec]
    have hidx : pn + 1 + j = pn + (j + 1) := by omega
    simp [hidx, Nat.succ_mul, fullCalls_succ, List.append_assoc]
    omega

/-- The possible error results of `hashCopyN`: success, end-of-stream, or a
read fault — never `io.ErrUnexpectedEOF` or a store-side error. -/
theorem hashCopyN_err_cases (hashAlgos : List String) (src : StreamModel)
    (pos partSize : Nat) :
    (hashCopyN hashAlgos src pos partSize).err = none ∨
    (hashCopyN hashAlgos src pos partSize).err = some GoError.eof ∨
    ∃ code, (hashCopyN hashAlgos src pos partSize).err = some (GoError.readFault code) := by
  by_cases h : partSize ≤ src.len - pos
  · exact Or.inl (by simp [hashCopyN, h])
  · cases hf : src.fault with
    | none => exact Or.inr (Or.inl (by simp [hashCopyN, h, hf]))
    | some code => exact Or.inr (Or.inr ⟨code, by simp [hashCopyN, h, hf]⟩)

/-- Any early return from inside the part loop happens before the
`size > 0` verification (so `sizeCheckTripped` is `false`) and carries a
read fault or a part-upload error, never `io.ErrUnexpectedEOF`. -/
theorem putStreamLoop_abort_inv (store : StoreModel) (src : StreamModel)
    (tpc partSize : Nat) (size : Int) :
    ∀ (fuel pn pos total : Nat) (partsInfo : List (Nat × ObjectPart))
      (calls : List (Nat × Nat)) (res : PutStreamResult),
      putStreamLoop store src tpc partSize size fuel pn pos total partsInfo calls =
        .abort res →
      res.sizeCheckTripped = false ∧ res.err ≠ some GoError.unexpectedEOF := by
  intro fuel
  induction fuel with
  | zero =>
    intro pn pos total partsInfo calls res h
    simp [putStreamLoop] at h
  | succ fuel ih =>
    intro pn pos total partsInfo calls res h
    simp only [putStreamLoop] at h
    split at h
    · simp at h
    · split at h
      · cases h
        refine ⟨rfl, ?_⟩
        rcases hashCopyN_err_cases ["md5", "sha256"] src pos partSize with he | he | ⟨c, he⟩ <;>
          simp [he]
      · split at h
        · cases h
          exact ⟨rfl, by simp⟩
        · split at h
          · simp at h
          · exact ih _ _ _ _ _ _ h

/-! ## Characterising the finalize sequence -/

/-- When every part number in `i .. i+m-1` is recorded, the reconstruction
loop succeeds and appends, in increasing part-number order, one
`CompletePart` per record. -/
theorem buildGo_ok (partsInfo : List (Nat × ObjectPart)) (recOf : Nat → ObjectPart) :
    ∀ (m i : Nat) (acc : List CompletePart),
      (∀ j, i ≤ j → j < i + m → partsInfo.lookup j = some (recOf j)) →
      buildGo partsInfo m i acc =
        .ok (acc ++ (List.range' i m).map fun j =>
          { etag := (recOf j).etag, partNumber := (recOf j).partNumber }) := by
  intro m
  induction m with
  | zero =>
    intro i acc _
    simp [buildGo]
  | succ m ih =>
    intro i acc hlook
    have hi : partsInfo.lookup i = some (recOf i) := hlook i le_rfl (by omega)
    simp only [buildGo, hi]
    rw [ih (i + 1) _ fun j h1 h2 => hlook j (by omega) (by omega)]
    simp [List.range'_succ]

/-- When some part number in `i .. i+m-1` is missing from the records, the
reconstruction loop fails with a `Missing part number` error for a missing
part number in that range. -/
theorem buildGo_err (partsInfo : List (Nat × ObjectPart)) :
    ∀ (m i : Nat) (acc : List CompletePart) (j : Nat),
      i ≤ j → j < i + m → partsInfo.lookup j = none →
      ∃ j0, i ≤ j0 ∧ j0 < i + m ∧ partsInfo.lookup j0 = none ∧
        buildGo partsInfo m i acc = .error (.missingPart j0) := by
  intro m
  induction m with
  | zero =>
    intro i acc j h1 h2
    omega
  | succ m ih =>
    intro i acc j h1 h2 hmiss
    cases hi : partsInfo.lookup i with
    | none => exact ⟨i, le_rfl, by omega, hi, by simp [buildGo, hi]⟩
    | some part =>
      have hij : i ≠ j := by
        intro e
        rw [e, hmiss] at hi
        cases hi
      obtain ⟨j0, hj0a, hj0b, hj0c, hj0d⟩ :=
        ih (i + 1) (acc ++ [{ etag := part.etag, partNumber := part.partNumber }]) j
          (by omega) (by omega) hmiss
      exact ⟨j0, by omega, by omega, hj0c, by simp [buildGo, hi, hj0d]⟩

/-- Every error produced by the reconstruction loop is a
`Missing part number` error. -/
theorem buildGo_error_shape (partsInfo : List (Nat × ObjectPart)) :
    ∀ (m i : Nat) (acc : List CompletePart) (e : GoError),
      buildGo partsInfo m i acc = .error e → ∃ j, e = .missingPart j := by
  intro m
  induction m with
  | zero =>
    intro i acc e h
    simp [buildGo] at h
  | succ m ih =>
    intro i acc e h
    simp only [buildGo] at h
    cases hi : partsInfo.lookup i with
    | none =>
      rw [hi] at h
      cases h
      exact ⟨i, rfl⟩
    | some part =>
      rw [hi] at h
      exact ih (i + 1) _ e h

/-- `sortParts` is the identity on a list whose part numbers are the
consecutive integers `i, i+1, …` — the shape `buildGo` produces: the source
appends parts in upload order, so the final `sort.Sort` finds them already
ordered. -/
theorem sortParts_mapRange (e : Nat → Nat) :
    ∀ (m i : Nat),
      sortParts ((List.range' i m).map fun j => { etag := e j, partNumber := j }) =
        (List.range' i m).map fun j => { etag := e j, partNumber := j } := by
  intro m
  induction m with
  | zero =>
    intro i
    simp [sortParts]
  | succ m ih =>
    intro i
    rw [List.range'_succ]
    simp only [List.map_cons, sortParts, ih (i + 1)]
    cases m with
    | zero => simp [insertPart]
    | succ m2 =>
      rw [List.range'_succ]
      simp [insertPart, show i < i + 1 from by omega]

/-- Skipping a non-matching head in an association-list lookup. -/
theorem lookup_cons_ne {k a : Nat} {b : ObjectPart} {es : List (Nat × ObjectPart)}
    (h : a ≠ k) : ((k, b) :: es).lookup a = es.lookup a := by
  have hb : (a == k) = false := by simp [h]
  rw [List.lookup_cons, hb]

/-- Looking up any of the `m` full-part records starting at part `pn`. -/
theorem fullRecords_lookup (store : StoreModel) (partSize : Nat) :
    ∀ (m pn j : Nat), pn ≤ j → j < pn + m →
      (fullRecords store partSize pn m).lookup j =
        some { partNumber := j, etag := store.partETag j, size := partSize } := by
  intro m
  induction m with
  | zero =>
    intro pn j h1 h2
    omega
  | succ m ih =>
    intro pn j h1 h2
    by_cases hj : j = pn
    · subst hj
      simp [fullRecords]
    · rw [show fullRecords store partSize pn (m + 1) =
          (pn, { partNumber := pn, etag := store.partETag pn, size := partSize }) ::
            fullRecords store partSize (pn + 1) m from rfl]
      rw [lookup_cons_ne hj]
      exact ih (pn + 1) j (by omega) (by omega)

/-- Looking up any of the records of a clean exhaust run: `f` full parts
starting at part `pn`, then a final part of `r` bytes. -/
theorem cleanRecords_lookup (store : StoreModel) (partSize r : Nat) :
    ∀ (f pn j : Nat), pn ≤ j → j ≤ pn + f →
      (cleanRecords store partSize pn f r).lookup j =
        some (if j = pn + f then { partNumber := j, etag := store.partETag j, size := r }
              else { partNumber := j, etag := store.partETag j, size := partSize }) := by
  intro f
  induction f with
  | zero =>
    intro pn j h1 h2
    have : j = pn := by omega
    subst this
    simp [cleanRecords]
  | succ f ih =>
    intro pn j h1 h2
    by_cases hj : j = pn
    · subst hj
      rw [show cleanRecords store partSize j (f + 1) r =
          (j, { partNumber := j, etag := store.partETag j, size := partSize }) ::
            cleanRecords store partSize (j + 1) f r from rfl]
      rw [List.lookup_cons_self]
      simp [show ¬ j = j + (f + 1) from by omega]
    · rw [show cleanRecords store partSize pn (f + 1) r =
          (pn, { partNumber := pn, etag := store.partETag pn, size := partSize }) ::
            cleanRecords store partSize (pn + 1) f r from rfl]
      rw [lookup_cons_ne hj, ih (pn + 1) j (by omega) (by omega)]
      simp only [show pn + 1 + f = pn + (f + 1) from by omega]

/-! ## Connecting `putStream` to the loop -/

/-- The plan `PutStream` computes for its hard-coded unknown-size sentinel:
the 640 GiB ceiling divided into 5120 parts of 128 MiB. -/
theorem optimalPartInfo_unknown :
    optimalPartInfo (-1) =
      { totalPartsCount := 5120, partSize := 134217728, lastPartSize := 134217728 } := by
  decide

/-- With client construction and upload initiation succeeding, `PutStream`
is the part loop (5120 parts of 128 MiB budgeted, from the unknown-size
plan) followed by `finalize`; the `size > 0` verification never fires
because `size = -1`. -/
theorem putStream_eq_loop (store : StoreModel) (src : StreamModel)
    (hclient : store.newClientErr = none) (hinit : store.newMultipartErr = none) :
    putStream store src =
      match putStreamLoop store src 5120 134217728 (-1) 5121 1 0 0 [] [] with
      | .abort res => res
      | .finish partNumber _pos total partsInfo calls =>
        finalize store partsInfo partNumber total calls := by
  unfold putStream
  rw [hclient, hinit]
  dsimp only
  rw [optimalPartInfo_unknown]
  norm_num [show ¬ (0 : Int) < -1 from by norm_num]
  rw [show Int.toNat 5120 = 5120 from rfl, show Int.toNat 134217728 = 134217728 from rfl]

/-- `finalize` returns the part-call trace unchanged on both of its
branches. -/
theorem finalize_partCalls (store : StoreModel) (partsInfo : List (Nat × ObjectPart))
    (partNumber total : Nat) (calls : List (Nat × Nat)) :
    (finalize store partsInfo partNumber total calls).partCalls = calls := by
  unfold finalize
  cases buildCompletedParts partsInfo partNumber <;> rfl

/-- When the part-list reconstruction succeeds, `finalize` issues the
completion call. -/
theorem finalize_completionCalled_of_ok (store : StoreModel)
    (partsInfo : List (Nat × ObjectPart)) (partNumber total : Nat)
    (calls : List (Nat × Nat)) (parts : List CompletePart)
    (h : buildCompletedParts partsInfo partNumber = .ok parts) :
    (finalize store partsInfo partNumber total calls).completionCalled = true := by
  unfold finalize
  rw [h]

/-! ## The claims -/

/-- C1: the claim asserts that for every known `objectSize > 0` the planner
returns a `partSize` that is a positive multiple of `minPartSize` and a
`totalPartsCount ≤ maxPartsCount`.  The code violates it: at
`objectSize = 671088640001 = 10000 * 2^26 + 1` the integer division
`objectSize / maxPartsCount` drops the remainder, `partSize` stays at the
64 MiB floor, and `totalPartsCount = 10001` exceeds `maxPartsCount`. -/
theorem c1_planner_bound_violation :
    (optimalPartInfo 671088640001).partSize = minPartSize ∧
    (optimalPartInfo 671088640001).totalPartsCount = 10001 ∧
    maxPartsCount < (optimalPartInfo 671088640001).totalPartsCount := by
  decide

/-- C7: for every known `objectSize` (anything but the `-1` sentinel) the
planner's results satisfy
`(totalPartsCount - 1) * partSize + lastPartSize = objectSize` exactly —
`lastPartSize` is defined as precisely that difference. -/
theorem c7_size_identity (objectSize : Int) (hknown : objectSize ≠ -1) :
    ((optimalPartInfo objectSize).totalPartsCount - 1) * (optimalPartInfo objectSize).partSize
      + (optimalPartInfo objectSize).lastPartSize = objectSize := by
  simp only [optimalPartInfo, if_neg hknown]
  ring

/-- Witness for C7 at the spec's 200 MiB example size. -/
theorem c7_size_identity_witness :
    ((optimalPartInfo 209715200).totalPartsCount - 1) * (optimalPartInfo 209715200).partSize
      + (optimalPartInfo 209715200).lastPartSize = 209715200 :=
  c7_size_identity 209715200 (by decide)

/-- C9: the spec's worked example — 200 MiB plans as 4 parts of 64 MiB with
an 8 MiB last part. -/
theorem c9_planner_example :
    optimalPartInfo (200 * 1024 * 1024) =
      { totalPartsCount := 4, partSize := 64 * 1024 * 1024,
        lastPartSize := 8 * 1024 * 1024 } := by
  decide

/-- C6: when the stream ends before `partSize` bytes are copied,
`hashCopyN` returns the partial count together with `io.EOF` (not a hard
error) and finalizes every requested digest into the out-parameter map;
on any other read fault it returns that fault immediately (with a zero
count) and the digest map stays unpopulated. -/
theorem c6_hash_copy (hashAlgos : List String) (src : StreamModel) (pos partSize : Nat)
    (hshort : src.len - pos < partSize) :
    (src.fault = none →
      (hashCopyN hashAlgos src pos partSize).size = src.len - pos ∧
      (hashCopyN hashAlgos src pos partSize).err = some GoError.eof ∧
      (hashCopyN hashAlgos src pos partSize).hashSums =
        hashAlgos.map fun a => (a, src.len - pos)) ∧
    (∀ code, src.fault = some code →
      (hashCopyN hashAlgos src pos partSize).err = some (GoError.readFault code) ∧
      (hashCopyN hashAlgos src pos partSize).size = 0 ∧
      (hashCopyN hashAlgos src pos partSize).hashSums = []) := by
  constructor
  · intro hf
    simp [hashCopyN, if_neg (by omega : ¬ partSize ≤ src.len - pos), hf]
  · intro code hf
    simp [hashCopyN, if_neg (by omega : ¬ partSize ≤ src.len - pos), hf]

/-- Witness for C6: a 5-byte stream against a 10-byte limit, ending cleanly
(both digests finalized, `io.EOF` reported with count 5) and ending in a
read fault (no digests, fault reported). -/
theorem c6_hash_copy_witness :
    (hashCopyN ["md5", "sha256"] { len := 5, fault := none } 0 10).size = 5 ∧
    (hashCopyN ["md5", "sha256"] { len := 5, fault := none } 0 10).err =
      some GoError.eof ∧
    (hashCopyN ["md5", "sha256"] { len := 5, fault := none } 0 10).hashSums =
      [("md5", 5), ("sha256", 5)] ∧
    (hashCopyN ["md5", "sha256"] { len := 5, fault := some 3 } 0 10).err =
      some (GoError.readFault 3) ∧
    (hashCopyN ["md5", "sha256"] { len := 5, fault := some 3 } 0 10).hashSums = [] := by
  have h1 := (c6_hash_copy ["md5", "sha256"] { len := 5, fault := none } 0 10 (by decide)).1 rfl
  have h2 := (c6_hash_copy ["md5", "sha256"] { len := 5, fault := some 3 } 0 10 (by decide)).2
    3 rfl
  exact ⟨h1.1, h1.2.1, h1.2.2, h2.1, h2.2.2⟩

/-- C10: `PutStream` never returns `io.ErrUnexpectedEOF`: the size is
hard-coded to `-1` before planning, so the `size > 0` verification branch
is unreachable (`sizeCheckTripped` is always `false`). -/
theorem c10_no_unexpected_eof (store : StoreModel) (src : StreamModel) :
    (putStream store src).sizeCheckTripped = false ∧
    (putStream store src).err ≠ some GoError.unexpectedEOF := by
  unfold putStream
  cases hc : store.newClientErr with
  | some code => exact ⟨rfl, by simp⟩
  | none =>
    cases hm : store.newMultipartErr with
    | some code => exact ⟨rfl, by simp⟩
    | none =>
      dsimp only
      cases hloop : putStreamLoop store src (Int.toNat (optimalPartInfo (-1)).totalPartsCount)
          (Int.toNat (optimalPartInfo (-1)).partSize) (-1)
          (Int.toNat (optimalPartInfo (-1)).totalPartsCount + 1) 1 0 0 [] [] with
      | abort res =>
        exact putStreamLoop_abort_inv store src _ _ _ _ _ _ _ _ _ res hloop
      | finish partNumber pos total partsInfo calls =>
        dsimp only
        rw [if_neg (by norm_num : ¬ (0 < (-1 : Int) ∧ (total : Int) ≠ -1))]
        unfold finalize
        cases hb : buildCompletedParts partsInfo partNumber with
        | error e =>
          obtain ⟨j, rfl⟩ := buildGo_error_shape partsInfo (partNumber - 1) 1 [] e hb
          exact ⟨rfl, by simp⟩
        | ok parts =>
          cases store.completeErr with
          | none => exact ⟨rfl, by simp⟩
          | some code => exact ⟨rfl, by simp⟩

/-- Witness for C10 at a concrete store and stream. -/
theorem c10_no_unexpected_eof_witness :
    (putStream okStore { len := 42, fault := none }).sizeCheckTripped = false ∧
    (putStream okStore { len := 42, fault := none }).err ≠ some GoError.unexpectedEOF :=
  c10_no_unexpected_eof okStore { len := 42, fault := none }

/-- C2 counterexample: a stream delivering one full 128 MiB part and then
5 more bytes before a read fault.  Part 1 transfers 134217728 bytes, yet
`PutStream` reports `n = 0` — not the bytes transferred in prior
iterations — and returns with the 5 partially-copied bytes still in the
temporary buffer (`tmpBufferLen = 5`, no `Reset` on this path), refuting
the claim that the prior-iteration byte count is returned and the buffer
is cleared. -/
theorem c2_counterexample :
    putStream okStore { len := 134217733, fault := some 7 } =
      { n := 0, err := some (GoError.readFault 7), partCalls := [(1, 134217728)],
        completionCalled := false, completionParts := [], tmpBufferLen := 5,
        sizeCheckTripped := false } := by
  decide

/-- C2 as amended: when the chunk copy fails for a reason other than
end-of-stream, `PutStream` aborts the loop and returns that error with a
byte count of `0` — the running total from prior iterations is discarded —
and the temporary buffer still holds the partially copied bytes of the
current chunk (`src.len % partSize`); it is not cleared on this path.  The
prior iterations transferred `src.len / partSize` full parts. -/
theorem c2_amended_read_fault (store : StoreModel) (src : StreamModel) (code : Nat)
    (hclient : store.newClientErr = none) (hinit : store.newMultipartErr = none)
    (hstore : ∀ i, store.partErr i = none) (hfault : src.fault = some code)
    (hlen : src.len < 5120 * 134217728) :
    putStream store src =
      { n := 0, err := some (GoError.readFault code),
        partCalls := fullCalls 134217728 1 (src.len / 134217728),
        completionCalled := false, completionParts := [],
        tmpBufferLen := src.len % 134217728, sizeCheckTripped := false } := by
  rw [putStream_eq_loop store src hclient hinit]
  have h := putStreamLoop_exhaust store src 5120 134217728 (src.len % 134217728) hstore
    (Nat.mod_lt _ (by norm_num)) (src.len / 134217728) 5121 1 0 0 [] []
    (by omega) (by omega) (by omega)
  rw [hfault] at h
  rw [h]
  simp

/-- Witness for the amended C2 at the counterexample input: one full prior
part (134217728 bytes transferred), then a fault with 5 bytes copied. -/
theorem c2_amended_read_fault_witness :
    putStream okStore { len := 134217733, fault := some 7 } =
      { n := 0, err := some (GoError.readFault 7),
        partCalls := fullCalls 134217728 1 1, completionCalled := false,
        completionParts := [], tmpBufferLen := 5, sizeCheckTripped := false } := by
  have h := c2_amended_read_fault okStore { len := 134217733, fault := some 7 } 7
    rfl rfl (fun _ => rfl) rfl (by norm_num)
  simpa using h

/-- C4: an unknown-size stream shorter than one computed part size
(128 MiB), against a store whose every call succeeds, uploads exactly one
part whose size is the stream's length, still issues the completion call,
and returns that length as the byte count. -/
theorem c4_short_stream_single_part (store : StoreModel) (src : StreamModel)
    (hclient : store.newClientErr = none) (hinit : store.newMultipartErr = none)
    (hstore : ∀ i, store.partErr i = none) (hcomplete : store.completeErr = none)
    (hclean : src.fault = none)
    (hshort : src.len < ((optimalPartInfo (-1)).partSize).toNat) :
    putStream store src =
      { n := src.len, err := none, partCalls := [(1, src.len)], completionCalled := true,
        completionParts := [{ etag := store.partETag 1, partNumber := 1 }],
        tmpBufferLen := 0, sizeCheckTripped := false } := by
  rw [optimalPartInfo_unknown] at hshort
  rw [show Int.toNat 134217728 = 134217728 from rfl] at hshort
  rw [putStream_eq_loop store src hclient hinit]
  have h := putStreamLoop_exhaust store src 5120 134217728 src.len hstore hshort
    0 5121 1 0 0 [] [] (by omega) (by omega) (by omega)
  rw [hclean] at h
  rw [h]
  simp only [Nat.zero_mul, Nat.zero_add, Nat.add_zero]
  unfold finalize
  rw [show buildCompletedParts ([] ++ cleanRecords store 134217728 1 0 src.len) (1 + 0 + 1) =
        buildGo (cleanRecords store 134217728 1 0 src.len) 1 1 [] from rfl]
  rw [show cleanRecords store 134217728 1 0 src.len =
        [(1, { partNumber := 1, etag := store.partETag 1, size := src.len })] from rfl]
  simp [buildGo, hcomplete, sortParts, insertPart, fullCalls]

/-- Witness for C4: a 42-byte stream against the all-success store. -/
theorem c4_short_stream_single_part_witness :
    putStream okStore { len := 42, fault := none } =
      { n := 42, err := none, partCalls := [(1, 42)], completionCalled := true,
        completionParts := [{ etag := 0, partNumber := 1 }], tmpBufferLen := 0,
        sizeCheckTripped := false } :=
  c4_short_stream_single_part okStore { len := 42, fault := none }
    rfl rfl (fun _ => rfl) rfl rfl (by decide)

/-- C3: when `PutObjectPart` first fails at part `p` (every earlier part
succeeded and the stream holds at least `p` full parts), `PutStream` resets
the temporary buffer and returns immediately with that error and the
running total from the `p - 1` prior successful parts only; part `p` is
attempted exactly once (`partCalls` lists each part once, ending at `p`)
and no completion call is issued. -/
theorem c3_part_upload_failure (store : StoreModel) (src : StreamModel) (p code : Nat)
    (hclient : store.newClientErr = none) (hinit : store.newMultipartErr = none)
    (hpre : ∀ i, i < p → store.partErr i = none) (hfail : store.partErr p = some code)
    (hp : 1 ≤ p) (hbudget : p ≤ 5120) (hlen : p * 134217728 ≤ src.len) :
    putStream store src =
      { n := (p - 1) * 134217728, err := some (GoError.partUploadErr code),
        partCalls := fullCalls 134217728 1 p, completionCalled := false,
        completionParts := [], tmpBufferLen := 0, sizeCheckTripped := false } := by
  rw [putStream_eq_loop store src hclient hinit]
  have h := putStreamLoop_partfail store src 5120 134217728 code (p - 1) 5121 1 0 0 [] []
    (by intro i hi; exact hpre i (by omega))
    (by rw [show 1 + (p - 1) = p from by omega]; exact hfail)
    (by omega) (by omega)
    (by rw [show p - 1 + 1 = p from by omega]; omega)
  rw [h]
  simp [show p - 1 + 1 = p from by omega]

/-- Witness for C3 — the spec's "fails on part 3 of 5" scenario: a stream of
five full parts against `failAt3Store` returns the bytes of parts 1 and 2
only, with no completion call. -/
theorem c3_part_upload_failure_witness :
    putStream failAt3Store { len := 671088640, fault := none } =
      { n := 268435456, err := some (GoError.partUploadErr 9),
        partCalls := fullCalls 134217728 1 3, completionCalled := false,
        completionParts := [], tmpBufferLen := 0, sizeCheckTripped := false } := by
  have h := c3_part_upload_failure failAt3Store { len := 671088640, fault := none } 3 9
    rfl rfl (by intro i hi; simp only [failAt3Store]; rw [if_neg (by omega)]) (by rfl)
    (by omega) (by omega) (by norm_num)
  simpa using h

/-- C5: at finalize, the completion part list is rebuilt from the recorded
parts.  When every part number `1 .. partNumber-1` is recorded (with its
own number, as the loop always records), completion is issued with exactly
the part numbers `1 .. partNumber-1` in ascending order; when some expected
part number is missing, `finalize` returns a `Missing part number` error
for a missing number in that range and never issues the completion call. -/
theorem c5_finalize_part_list (store : StoreModel) (partsInfo : List (Nat × ObjectPart))
    (partNumber total : Nat) (calls : List (Nat × Nat)) (hpn : 1 ≤ partNumber) :
    ((∀ i, 1 ≤ i → i < partNumber →
        ∃ rec, partsInfo.lookup i = some rec ∧ rec.partNumber = i) →
      (finalize store partsInfo partNumber total calls).completionCalled = true ∧
      (finalize store partsInfo partNumber total calls).completionParts.map
          (fun p => p.partNumber) = List.range' 1 (partNumber - 1)) ∧
    ((∃ i, 1 ≤ i ∧ i < partNumber ∧ partsInfo.lookup i = none) →
      (finalize store partsInfo partNumber total calls).completionCalled = false ∧
      ∃ j, 1 ≤ j ∧ j < partNumber ∧ partsInfo.lookup j = none ∧
        (finalize store partsInfo partNumber total calls).err =
          some (GoError.missingPart j)) := by
  constructor
  · intro hall
    have hlook : ∀ j, 1 ≤ j → j < 1 + (partNumber - 1) →
        partsInfo.lookup j =
          some ((partsInfo.lookup j).getD { partNumber := j, etag := 0, size := 0 }) := by
      intro j h1 h2
      obtain ⟨rec, hr, _⟩ := hall j h1 (by omega)
      rw [hr]
      rfl
    have hpnum : ∀ j, 1 ≤ j → j < 1 + (partNumber - 1) →
        ((partsInfo.lookup j).getD { partNumber := j, etag := 0, size := 0 }).partNumber
          = j := by
      intro j h1 h2
      obtain ⟨rec, hr, hn⟩ := hall j h1 (by omega)
      rw [hr]
      exact hn
    have hb := buildGo_ok partsInfo
      (fun j => (partsInfo.lookup j).getD { partNumber := j, etag := 0, size := 0 })
      (partNumber - 1) 1 [] hlook
    unfold finalize buildCompletedParts
    rw [hb]
    refine ⟨rfl, ?_⟩
    have hmap : ((List.range' 1 (partNumber - 1)).map fun j =>
        ({ etag := ((partsInfo.lookup j).getD { partNumber := j, etag := 0, size := 0 }).etag,
           partNumber :=
             ((partsInfo.lookup j).getD
               { partNumber := j, etag := 0, size := 0 }).partNumber } : CompletePart)) =
        (List.range' 1 (partNumber - 1)).map fun j =>
        ({ etag := ((partsInfo.lookup j).getD { partNumber := j, etag := 0, size := 0 }).etag,
           partNumber := j } : CompletePart) := by
      apply List.map_congr_left
      intro j hj
      rw [List.mem_range'_1] at hj
      rw [hpnum j hj.1 hj.2]
    dsimp only
    rw [List.nil_append, hmap,
      sortParts_mapRange
        (fun j => ((partsInfo.lookup j).getD { partNumber := j, etag := 0, size := 0 }).etag)]
    rw [List.map_map]
    exact List.map_id'' (fun x => rfl) _
  · rintro ⟨i, hi1, hi2, hmiss⟩
    obtain ⟨j0, hj1, hj2, hj3, hj4⟩ :=
      buildGo_err partsInfo (partNumber - 1) 1 [] i hi1 (by omega) hmiss
    unfold finalize buildCompletedParts
    rw [hj4]
    exact ⟨rfl, j0, hj1, by omega, hj3, rfl⟩

/-- Witness for C5: with part 1 recorded, completion is issued for a
2-part finalize; with no parts recorded, it is withheld and the missing
part is reported. -/
theorem c5_finalize_part_list_witness :
    (finalize okStore [(1, { partNumber := 1, etag := 5, size := 10 })] 2 10 []
      ).completionCalled = true ∧
    (finalize okStore [] 2 0 []).completionCalled = false := by
  constructor
  · exact ((c5_finalize_part_list okStore
      [(1, { partNumber := 1, etag := 5, size := 10 })] 2 10 [] (by omega)).1
      (by
        intro i h1 h2
        have : i = 1 := by omega
        subst this
        exact ⟨{ partNumber := 1, etag := 5, size := 10 }, rfl, rfl⟩)).1
  · exact ((c5_finalize_part_list okStore [] 2 0 [] (by omega)).2
      ⟨1, by omega, by omega, rfl⟩).1

/-- C8 counterexample: the claim asserts a trailing zero-length part for
*every* stream whose length is a non-zero exact multiple of `partSize`.  At
the multiple `5120 * 134217728` (exactly the planned `totalPartsCount`
parts, i.e. the 640 GiB planning ceiling) the loop exits by the
`partNumber <= totalPartsCount` guard instead: all 5120 `PutObjectPart`
calls carry full 128 MiB parts, none is zero-length, and the upload still
finalizes normally. -/
theorem c8_counterexample :
    687194767360 = 5120 * ((optimalPartInfo (-1)).partSize).toNat ∧
    (putStream okStore { len := 687194767360, fault := none }).partCalls =
      fullCalls 134217728 1 5120 ∧
    ((fullCalls 134217728 1 5120).all fun pc => decide (0 < pc.2)) = true ∧
    (putStream okStore { len := 687194767360, fault := none }).completionCalled = true := by
  have hloop := putStreamLoop_budget okStore { len := 687194767360, fault := none }
    5120 134217728 (fun _ => rfl) 5120 5121 1 0 0 [] [] (by omega) (by omega) (by norm_num)
  have hps : putStream okStore { len := 687194767360, fault := none } =
      finalize okStore (fullRecords okStore 134217728 1 5120) 5121 687194767360
        (fullCalls 134217728 1 5120) := by
    rw [putStream_eq_loop okStore { len := 687194767360, fault := none } rfl rfl, hloop]
    norm_num
  have hb : buildCompletedParts (fullRecords okStore 134217728 1 5120) 5121 =
      .ok ([] ++ (List.range' 1 5120).map fun j =>
        { etag := ({ partNumber := j, etag := okStore.partETag j,
                     size := 134217728 } : ObjectPart).etag,
          partNumber := ({ partNumber := j, etag := okStore.partETag j,
                           size := 134217728 } : ObjectPart).partNumber }) := by
    rw [show buildCompletedParts (fullRecords okStore 134217728 1 5120) 5121 =
        buildGo (fullRecords okStore 134217728 1 5120) 5120 1 [] from rfl]
    exact buildGo_ok (fullRecords okStore 134217728 1 5120)
      (fun j => { partNumber := j, etag := okStore.partETag j, size := 134217728 })
      5120 1 [] fun j h1 h2 => fullRecords_lookup okStore 134217728 5120 1 j h1 h2
  refine ⟨by decide, ?_, ?_, ?_⟩
  · rw [hps, finalize_partCalls]
  · refine List.all_eq_true.mpr ?_
    intro pc hpc
    simp only [fullCalls, List.mem_map] at hpc
    obtain ⟨i, hi, rfl⟩ := hpc
    rfl
  · rw [hps]
    exact finalize_completionCalled_of_ok okStore (fullRecords okStore 134217728 1 5120)
      5121 687194767360 (fullCalls 134217728 1 5120) _ hb

/-- C8 as amended: for a stream whose length is `k` times the computed part
size with `1 ≤ k < totalPartsCount` (so the exact-multiple end-of-stream is
discovered inside the part budget), ending cleanly, against an all-success
store, `PutStream`'s final `PutObjectPart` call is a trailing zero-length
part numbered `k + 1` — the source does not suppress it — and the upload
still proceeds to completion. -/
theorem c8_amended_trailing_zero_part (store : StoreModel) (src : StreamModel) (k : Nat)
    (hclient : store.newClientErr = none) (hinit : store.newMultipartErr = none)
    (hstore : ∀ i, store.partErr i = none) (hclean : src.fault = none)
    (hlen : src.len = k * ((optimalPartInfo (-1)).partSize).toNat)
    (hk1 : 1 ≤ k) (hk2 : k < ((optimalPartInfo (-1)).totalPartsCount).toNat) :
    (putStream store src).partCalls.getLast? = some (k + 1, 0) ∧
    (putStream store src).completionCalled = true := by
  rw [optimalPartInfo_unknown] at hlen hk2
  rw [show Int.toNat 134217728 = 134217728 from rfl] at hlen
  rw [show Int.toNat 5120 = 5120 from rfl] at hk2
  rw [putStream_eq_loop store src hclient hinit]
  have h := putStreamLoop_exhaust store src 5120 134217728 0 hstore (by norm_num) k 5121
    1 0 0 [] [] (by omega) (by omega) (by omega)
  rw [hclean] at h
  rw [h]
  dsimp only
  have hb : buildCompletedParts ([] ++ cleanRecords store 134217728 1 k 0) (1 + k + 1) =
      .ok ([] ++ (List.range' 1 (k + 1)).map fun j =>
        { etag := ((if j = 1 + k
            then { partNumber := j, etag := store.partETag j, size := 0 }
            else { partNumber := j, etag := store.partETag j,
                   size := 134217728 }) : ObjectPart).etag,
          partNumber := ((if j = 1 + k
            then { partNumber := j, etag := store.partETag j, size := 0 }
            else { partNumber := j, etag := store.partETag j,
                   size := 134217728 }) : ObjectPart).partNumber }) := by
    rw [List.nil_append,
      show buildCompletedParts (cleanRecords store 134217728 1 k 0) (1 + k + 1) =
        buildGo (cleanRecords store 134217728 1 k 0) (1 + k + 1 - 1) 1 [] from rfl,
      show 1 + k + 1 - 1 = k + 1 from by omega]
    exact buildGo_ok (cleanRecords store 134217728 1 k 0)
      (fun j => if j = 1 + k
        then { partNumber := j, etag := store.partETag j, size := 0 }
        else { partNumber := j, etag := store.partETag j, size := 134217728 })
      (k + 1) 1 []
      fun j h1 h2 => cleanRecords_lookup store 134217728 0 k 1 j h1 (by omega)
  constructor
  · unfold finalize
    rw [hb]
    dsimp only
    rw [List.nil_append, List.getLast?_concat]
    rw [show 1 + k = k + 1 from by omega]
  · unfold finalize
    rw [hb]

/-- Witness for the amended C8 at `k = 1`: a 128 MiB stream gets a
zero-length part 2 and completion is still invoked. -/
theorem c8_amended_trailing_zero_part_witness :
    (putStream okStore { len := 134217728, fault := none }).partCalls.getLast? =
      some (2, 0) ∧
    (putStream okStore { len := 134217728, fault := none }).completionCalled = true :=
  c8_amended_trailing_zero_part okStore { len := 134217728, fault := none } 1
    rfl rfl (fun _ => rfl) rfl (by decide) (by omega) (by decide)

end MinioStream
